import Mathlib

/-!
Route engine, UDP listener demux and local dialer.

A shallow embedding of `chain/route.go`, `common/util/udp/listener.go` and
`common/net/dialer/dialer.go`, and the properties of their traversal,
demultiplexing and dialing logic.

Conventions of the embedding.

* A Go value pair `(v, err)` is a Lean pair `α × Option Err`; `none` is the
  `nil` error. The code only ever branches on `err != nil`.
* A `net.Conn` interface value is a `Conn`: `none` is `nil`, `some s` is the
  stream with identity `s`.
* Resolvers, transports, markers and `Close` are external collaborators.
  Every call is appended to a chronological trace of `Event`s, together with
  the values the callee returned; the callee's answer is an arbitrary function
  of the trace so far and of the call's arguments (`Env`).
* A `*Node` taken from `r.nodes` is the pair of its position in `r.nodes` and
  the node value; events are labelled with that position.
* A function that can hit a run-time panic returns an `Option`, `none` being
  the panic. Calling `Close` on a `nil` stream is recorded like any other
  `Close`: transports that report success are expected to hand out a stream.
-/

namespace Core

/-- An error value. -/
abbrev Err := String

/-- A `net.Conn` interface value: `none` is `nil`. -/
abbrev Conn := Option Nat

/-- The sentinel `ErrEmptyRoute = errors.New("empty route")`. -/
def ErrEmptyRoute : Err := "empty route"

/-! ## Local dialer (`common/net/dialer/dialer.go`) -/

/-- An IP address in canonical form. -/
abbrev IP := String

/-- An address of a network interface: a `*net.IPNet` or another `net.Addr`. -/
inductive IfAddr where
  | ipNet (ip : IP)
  | other (text : String)
  deriving DecidableEq, Repr

/-- The local address `parseInterfaceAddr` builds. -/
inductive LocalAddr where
  | TCPAddr (ip : IP) (port : Nat)
  | UDPAddr (ip : IP) (port : Nat)
  | IPAddr (ip : IP)
  deriving DecidableEq, Repr

/-- A `net.Interface`: its name and what `Addrs()` returns. -/
structure NetInterface where
  Name : String
  Addrs : List IfAddr × Option Err

/-- What the `Control` callback of the built-in dial does on the socket:
`bindDevice` when an interface name was resolved, `setMark` when `Mark ≠ 0`. -/
structure SockControl where
  bindDevice : Option String
  setMark : Option Int
  deriving DecidableEq, Repr

/-- The operating system and the `net` package, as far as the dialer uses them. -/
structure Sys where
  ParseIP : String → Option IP
  InterfaceByName : String → Option NetInterface × Option Err
  Interfaces : List NetInterface × Option Err
  ListenUDP : String → Option (IP × Nat) → Conn × Option Err
  DialContext : Int → Option LocalAddr → SockControl → String → String → Conn × Option Err

/-- The constant `time.Second`, in nanoseconds. -/
def Second : Int := 1000000000

/-- The constant `DefaultTimeout = 15 * time.Second`. -/
def DefaultTimeout : Int := 15 * Second

/-- The struct `NetDialer` (the logger left out). -/
structure NetDialer where
  Interface : String := ""
  Mark : Int := 0
  Timeout : Int := 0
  DialFunc : Option (String → String → Conn × Option Err) := none

/-- The variable `DefaultNetDialer = &NetDialer{}`. -/
def DefaultNetDialer : NetDialer := {}

/-- The inner loop of `findInterfaceByIP` over the addresses of one interface:
whether one of them is an `*net.IPNet` equal to `ip`. -/
def findInterfaceByIP.hasIP (ip : IP) : List IfAddr → Bool
  | [] => false
  | IfAddr.ipNet a :: rest => if a = ip then true else findInterfaceByIP.hasIP ip rest
  | IfAddr.other _ :: rest => findInterfaceByIP.hasIP ip rest

/-- The outer loop of `findInterfaceByIP` over the interfaces. -/
def findInterfaceByIP.loop (ip : IP) : List NetInterface → String × Option Err
  | [] => ("", none)
  | ifce :: rest =>
    let addrs := ifce.Addrs.1
    if addrs.length = 0 then findInterfaceByIP.loop ip rest
    else if findInterfaceByIP.hasIP ip addrs then (ifce.Name, none)
    else findInterfaceByIP.loop ip rest

/-- The function `findInterfaceByIP`: the name of the first interface holding `ip`. -/
def findInterfaceByIP (sys : Sys) (ip : IP) : String × Option Err :=
  let (ifces, err) := sys.Interfaces
  if err ≠ none then ("", err)
  else findInterfaceByIP.loop ip ifces

/-- The final `switch network` of `parseInterfaceAddr`. -/
def parseInterfaceAddr.addrFor (ip : IP) (network : String) : LocalAddr :=
  if network = "tcp" ∨ network = "tcp4" ∨ network = "tcp6" then LocalAddr.TCPAddr ip 0
  else if network = "udp" ∨ network = "udp4" ∨ network = "udp6" then LocalAddr.UDPAddr ip 0
  else LocalAddr.IPAddr ip

/-- The function `parseInterfaceAddr`: the named results `(ifce, addr, err)`; `none` is a
panic (nil interface dereferenced, or a first address that is no `*net.IPNet`). -/
def parseInterfaceAddr (sys : Sys) (ifceName network : String) :
    Option (String × Option LocalAddr × Option Err) :=
  if ifceName = "" then some ("", none, none)
  else
    match sys.ParseIP ifceName with
    | none =>
      let (ife, err) := sys.InterfaceByName ifceName
      if err ≠ none then some ("", none, err)
      else
        match ife with
        | none => none
        | some ife =>
          let (addrs, err) := ife.Addrs
          if err ≠ none then some ("", none, err)
          else
            match addrs with
            | [] => some ("", none, some ("addr not found for interface " ++ ifceName))
            | IfAddr.other _ :: _ => none
            | IfAddr.ipNet ip :: _ =>
              some (ifceName, some (parseInterfaceAddr.addrFor ip network), none)
    | some ip =>
      let (ifce, err) := findInterfaceByIP sys ip
      if err ≠ none then some (ifce, none, err)
      else some (ifce, some (parseInterfaceAddr.addrFor ip network), none)

/-- The method `NetDialer.Dial`; `none` is a panic. -/
def NetDialer.Dial (sys : Sys) (d : Option NetDialer) (network addr : String) :
    Option (Conn × Option Err) :=
  let d : NetDialer := match d with
    | none => DefaultNetDialer
    | some d => d
  let d : NetDialer := if d.Timeout ≤ 0 then { d with Timeout := DefaultTimeout } else d
  match parseInterfaceAddr sys d.Interface network with
  | none => none
  | some (ifceName, ifAddr, err) =>
    if err ≠ none then some (none, err)
    else
      match d.DialFunc with
      | some f => some (f network addr)
      | none =>
        if (network = "udp" ∨ network = "udp4" ∨ network = "udp6") ∧ addr = "" then
          let laddr := match ifAddr with
            | some (LocalAddr.UDPAddr ip port) => some (ip, port)
            | _ => none
          some (sys.ListenUDP network laddr)
        else if network = "udp" ∨ network = "udp4" ∨ network = "udp6" ∨
            network = "tcp" ∨ network = "tcp4" ∨ network = "tcp6" then
          some (sys.DialContext d.Timeout ifAddr
            { bindDevice := if ifceName ≠ "" then some ifceName else none,
              setMark := if d.Mark ≠ 0 then some d.Mark else none }
            network addr)
        else some (none, some ("dial: unsupported network " ++ network))

/-! ## Route engine (`chain/route.go`) -/

mutual
/-- Modelled from the spec: the hop descriptor `Node`, declared outside
`route.go`; of its attributes the address and the (possibly nil) transport. -/
inductive Node where
  | mk (Addr : String) (Transport : Option Transport)
/-- Modelled from the spec: the capability bundle `Transport`, declared outside
`route.go`; its only data is the optional nested route used to reach the node. -/
inductive Transport where
  | mk (route : Option Route)
/-- A route: the ordered nodes and the outbound interface name. -/
inductive Route where
  | mk (nodes : List Node) (ifceName : String)
end

/-- Field `Addr` of a node. -/
def Node.Addr : Node → String
  | .mk a _ => a

/-- Field `Transport` of a node. -/
def Node.Transport : Node → Option Transport
  | .mk _ t => t

/-- Field `route` of a transport. -/
def Transport.route : Transport → Option Route
  | .mk r => r

/-- Field `nodes` of a route. -/
def Route.nodes : Route → List Node
  | .mk ns _ => ns

/-- Field `ifceName` of a route. -/
def Route.ifceName : Route → String
  | .mk _ i => i

/-- One call to an external collaborator, with what it returned. -/
inductive Event where
  | resolve (hop : Nat) (network addr : String) (ip : String) (err : Option Err)
  | dial (hop : Nat) (addr : String) (cc : Conn) (err : Option Err)
  | handshake (hop : Nat) (conn : Conn) (cn : Conn) (err : Option Err)
  | connect (hop : Nat) (conn : Conn) (network addr : String) (cc : Conn) (err : Option Err)
  | mark (hop : Nat)
  | reset (hop : Nat)
  | close (conn : Conn)
  deriving DecidableEq, Repr

/-- The behaviour of the resolvers and transports of a route: the package
function `resolve` and the methods `Dial`, `Handshake` and `Connect` of the
node's transport, none of which is defined in `route.go`. Each answer may
depend on everything that happened before (the trace), on the node and on the
arguments. -/
structure Env where
  resolve : List Event → Nat → String → String → String × Option Err
  Dial : List Event → Nat → String → Conn × Option Err
  Handshake : List Event → Nat → Conn → Conn × Option Err
  Connect : List Event → Nat → Conn → String → String → Conn × Option Err

/-- The method `Route.Len`: 0 for a nil route. -/
def Route.Len : Option Route → Nat
  | none => 0
  | some r => r.nodes.length

/-- The method `Route.GetNode`: nil when the route is empty or the index is out of range. -/
def Route.GetNode (r : Option Route) (index : Int) : Option (Nat × Node) :=
  match r with
  | none => none
  | some r =>
    if Route.Len (some r) = 0 ∨ index < 0 ∨ index ≥ (r.nodes.length : Int) then none
    else (r.nodes.get? index.toNat).map (fun n => (index.toNat, n))

/-- The body of `for _, node := range r.nodes[1:]` in `Route.connect`, run on
the remaining nodes. `cn`, `preNode` and `err` are the variables of the
enclosing function; the result is `((conn, err), trace)`. -/
def Route.connectLoop (env : Env) (network : String) :
    List (Nat × Node) → Nat × Node → Conn → Option Err → List Event →
      (Conn × Option Err) × List Event
  | [], _, cn, err, t => ((cn, err), t)
  | node :: rest, preNode, cn, _, t =>
    let (addr, err) := env.resolve t node.1 network node.2.Addr
    let t := t ++ [Event.resolve node.1 network node.2.Addr addr err]
    if err ≠ none then
      ((none, err), t ++ [Event.close cn, Event.mark node.1])
    else
      let (cc, err) := env.Connect t preNode.1 cn "tcp" addr
      let t := t ++ [Event.connect preNode.1 cn "tcp" addr cc err]
      if err ≠ none then
        ((none, err), t ++ [Event.close cn, Event.mark node.1])
      else
        let (cc2, err) := env.Handshake t node.1 cc
        let t := t ++ [Event.handshake node.1 cc cc2 err]
        if err ≠ none then
          ((none, err), t ++ [Event.close cn, Event.mark node.1])
        else
          Route.connectLoop env network rest node cc2 err (t ++ [Event.reset node.1])

/-- The method `Route.connect`: establish the chain hop by hop. The result is
`((conn, err), trace)` with `conn` and `err` the named results. -/
def Route.connect (env : Env) (r : Option Route) (t : List Event) :
    (Conn × Option Err) × List Event :=
  match r with
  | none => ((none, some ErrEmptyRoute), t)
  | some r =>
    match r.nodes.enum with
    | [] => ((none, some ErrEmptyRoute), t)
    | node :: rest =>
      let network := "ip"
      let (addr, err) := env.resolve t node.1 network node.2.Addr
      let t := t ++ [Event.resolve node.1 network node.2.Addr addr err]
      if err ≠ none then
        ((none, err), t ++ [Event.mark node.1])
      else
        let (cc, err) := env.Dial t node.1 addr
        let t := t ++ [Event.dial node.1 addr cc err]
        if err ≠ none then
          ((none, err), t ++ [Event.mark node.1])
        else
          let (cn, err) := env.Handshake t node.1 cc
          let t := t ++ [Event.handshake node.1 cc cn err]
          if err ≠ none then
            ((none, err), t ++ [Event.close cc, Event.mark node.1])
          else
            Route.connectLoop env network rest node cn err (t ++ [Event.reset node.1])

/-- The method `Route.Dial`: the result `(conn, err)` with the trace; `none` is a panic. -/
def Route.Dial (env : Env) (sys : Sys) (r : Option Route) (network address : String)
    (t : List Event) : Option ((Conn × Option Err) × List Event) :=
  if Route.Len r = 0 then
    let netd : NetDialer := { Timeout := 30 * Second }
    let netd : NetDialer := match r with
      | some r => { netd with Interface := r.ifceName }
      | none => netd
    (NetDialer.Dial sys (some netd) network address).map (fun res => (res, t))
  else
    let ((conn, err), t) := Route.connect env r t
    if err ≠ none then some ((none, err), t)
    else
      match Route.GetNode r ((Route.Len r : Int) - 1) with
      | none => none
      | some node =>
        let (cc, err) := env.Connect t node.1 conn network address
        let t := t ++ [Event.connect node.1 conn network address cc err]
        if err ≠ none then some ((none, err), t ++ [Event.close conn])
        else some ((cc, none), t)

mutual
/-- The method `Route.Path` on a non-nil receiver. -/
def Route.PathOf : Route → List Node
  | .mk nodes _ => if nodes.length = 0 then [] else Route.PathLoop nodes []
/-- The loop `for _, node := range r.nodes` of `Route.Path`, with the
accumulated `path`. -/
def Route.PathLoop : List Node → List Node → List Node
  | [], path => path
  | node :: rest, path =>
    Route.PathLoop rest (Route.PathNode node path ++ [node])
/-- The conditional append of the sub-route's path inside the loop. -/
def Route.PathNode : Node → List Node → List Node
  | .mk _ none, path => path
  | .mk _ (some (.mk none)), path => path
  | .mk _ (some (.mk (some sub))), path => path ++ Route.PathOf sub
end

/-- The method `Route.Path`: nil for a nil or empty route. -/
def Route.Path : Option Route → List Node
  | none => []
  | some r => Route.PathOf r

/-! ### Shapes of the traces of `Route.connect` -/

/-- The failing sub-step of an inter-hop step, with the values returned by
the sub-steps made. -/
inductive HopFail where
  | resolve (addr : String) (e : Err)
  | connect (addr : String) (cc : Conn) (e : Err)
  | handshake (addr : String) (cc cc2 : Conn) (e : Err)
  deriving DecidableEq, Repr

/-- The error of the failing sub-step. -/
def HopFail.err : HopFail → Err
  | .resolve _ e => e
  | .connect _ _ e => e
  | .handshake _ _ _ e => e

/-- The failing sub-step of the first hop. -/
inductive Hop0Fail where
  | resolve (addr : String) (e : Err)
  | dial (addr : String) (cc : Conn) (e : Err)
  | handshake (addr : String) (cc cn : Conn) (e : Err)
  deriving DecidableEq, Repr

/-- The error of the failing sub-step of the first hop. -/
def Hop0Fail.err : Hop0Fail → Err
  | .resolve _ e => e
  | .dial _ _ e => e
  | .handshake _ _ _ e => e

/-- The error a resolver or transport call returned (`none` for the other events). -/
def Event.err : Event → Option Err
  | .resolve _ _ _ _ e => e
  | .dial _ _ _ e => e
  | .handshake _ _ _ e => e
  | .connect _ _ _ _ _ e => e
  | _ => none

/-- The stream a `Close` was called on. -/
def Event.closed : Event → Option Conn
  | .close c => some c
  | _ => none

/-- An environment in which every call succeeds: addresses resolve to
themselves and each new stream is numbered by the length of the trace. -/
def okEnv : Env where
  resolve := fun _ _ _ a => (a, none)
  Dial := fun t _ _ => (some t.length, none)
  Handshake := fun t _ _ => (some t.length, none)
  Connect := fun t _ _ _ _ => (some t.length, none)

/-- An operating system without interfaces, on which every dial is refused. -/
def noSys : Sys where
  ParseIP := fun _ => none
  InterfaceByName := fun _ => (none, some "no such network interface")
  Interfaces := ([], none)
  ListenUDP := fun _ _ => (none, some "refused")
  DialContext := fun _ _ _ _ _ => (none, some "refused")

/-- A route of two nodes without sub-routes. -/
def twoHops : Route :=
  Route.mk [Node.mk "a.example:1080" none, Node.mk "b.example:1080" none] ""

/-- As `okEnv`, but every `Connect` fails. -/
def connFailEnv : Env where
  resolve := fun _ _ _ a => (a, none)
  Dial := fun t _ _ => (some t.length, none)
  Handshake := fun t _ _ => (some t.length, none)
  Connect := fun _ _ _ _ _ => (none, some "connect failed")

/-- The trace of `Route.connect` on `twoHops` in `okEnv`. -/
def twoHopsConnectTrace : List Event :=
  [Event.resolve 0 "ip" "a.example:1080" "a.example:1080" none,
   Event.dial 0 "a.example:1080" (some 1) none,
   Event.handshake 0 (some 1) (some 2) none,
   Event.reset 0,
   Event.resolve 1 "ip" "b.example:1080" "b.example:1080" none,
   Event.connect 0 (some 2) "tcp" "b.example:1080" (some 5) none,
   Event.handshake 1 (some 5) (some 6) none,
   Event.reset 1]

/-- The nested route of a node's transport: nil when the node has no
transport or the transport has no route. -/
def Node.subRoute (n : Node) : Option Route :=
  n.Transport.bind Transport.route

/-- A node reached through a one-node sub-route, and a plain node. -/
def nestedRoute : Route :=
  Route.mk
    [Node.mk "b.example:443" (some (Transport.mk (some (Route.mk [Node.mk "a.example:1080" none] "")))),
     Node.mk "c.example:8080" (some (Transport.mk none))] "eth0"

/-! ## UDP listener demux (`common/util/udp/listener.go`) -/

/-- The sentinel `net.ErrClosed`. -/
def ErrClosed : Err := "use of closed network connection"

namespace Udp

/-- Modelled from the spec: the virtual per-peer connection of the missing
`conn.go`, as the identity of the object `NewConn` allocated and its remote
address string. Its mutable state (closed or not, inbound queue) is kept in
the listener state, keyed by the identity. -/
structure Conn where
  id : Nat
  raddr : String
  deriving DecidableEq, Repr

/-- What one `ReadFrom` on the packet socket returns. -/
inductive ReadResult where
  | packet (raddr : String) (n : Nat)
  | error (e : Err)
  deriving DecidableEq, Repr

/-- The state of a listener and of the objects it owns. `cqueue` is the
buffered channel of capacity `backlog`, oldest first; `closed` says whether
the channel `closed` is closed; `errChan` is the value buffered in the error
channel (capacity 1) and `errChanClosed` whether that channel is closed. The
buffers of `bufpool` are numbered in the order of `Get`: `bufGot` counts the
`Get`s, `bufPut` lists the buffers handed to `Put`, `bufQueued` those
enqueued into a `Conn`. `rc` is the inbound queue of each `Conn`. -/
structure listener where
  backlog : Nat
  readQueueSize : Nat
  cqueue : List Conn := []
  connPool : List (String × Conn) := []
  nextConn : Nat := 0
  closedConns : List Conn := []
  rc : Nat → List Nat := fun _ => []
  closed : Bool := false
  sockClosed : Bool := false
  poolClosed : Bool := false
  errChan : Option Err := none
  errChanClosed : Bool := false
  bufGot : Nat := 0
  bufPut : List Nat := []
  bufQueued : List Nat := []

/-- The function `NewListener`, without the start of the read loop. -/
def NewListener (backlog dataQueueSize : Nat) : listener :=
  { backlog := backlog, readQueueSize := dataQueueSize }

/-- Modelled from the spec: `ConnPool.Get` of the missing `pool.go`, the
lookup in the `remote-address-string → Conn` mapping (TTL eviction left out). -/
def ConnPool.Get (pool : List (String × Conn)) (key : String) : Option Conn :=
  (pool.find? (fun kv => kv.1 = key)).map Prod.snd

/-- Modelled from the spec: `ConnPool.Set` of the missing `pool.go`, which
binds the key to the `Conn`, replacing an earlier binding. -/
def ConnPool.Set (pool : List (String × Conn)) (key : String) (c : Conn) :
    List (String × Conn) :=
  pool.filter (fun kv => kv.1 ≠ key) ++ [(key, c)]

/-- Modelled from the spec: `Conn.WriteQueue` of the missing `conn.go`, the
non-blocking enqueue into the bounded inbound queue; an error when it is full. -/
def Conn.WriteQueue (ln : listener) (c : Conn) (b : Nat) : Option Err × listener :=
  if (ln.rc c.id).length < ln.readQueueSize then
    (none, { ln with
      rc := fun i => if i = c.id then ln.rc i ++ [b] else ln.rc i,
      bufQueued := ln.bufQueued ++ [b] })
  else (some "recv queue is full", ln)

/-- The method `listener.getConn`: the pooled `Conn` of the address, or a new one offered
to the accept queue without blocking; nil when the queue is full. -/
def listener.getConn (ln : listener) (raddr : String) : Option Conn × listener :=
  match ConnPool.Get ln.connPool raddr with
  | some c => (some c, ln)
  | none =>
    let c : Conn := { id := ln.nextConn, raddr := raddr }
    let ln := { ln with nextConn := ln.nextConn + 1 }
    if ln.cqueue.length < ln.backlog then
      (some c, { ln with
        cqueue := ln.cqueue ++ [c],
        connPool := ConnPool.Set ln.connPool raddr c })
    else
      (none, { ln with closedConns := ln.closedConns ++ [c] })

/-- The method `listener.Accept`: every outcome the `select` allows, each with the
result `(conn, err)` and the state after it, in the order of the cases. The
`select` picks any one of its ready cases; no outcome means that `Accept`
blocks. -/
def listener.Accept (ln : listener) : List ((Option Conn × Option Err) × listener) :=
  (match ln.cqueue with
    | [] => []
    | c :: rest => [((some c, none), { ln with cqueue := rest })]) ++
  (if ln.closed then [((none, some ErrClosed), ln)] else []) ++
  (match ln.errChan with
    | some e => [((none, some e), { ln with errChan := none })]
    | none => if ln.errChanClosed then [((none, some ErrClosed), ln)] else [])

/-- The method `listener.listenLoop` on the results of the successive `ReadFrom` calls.
With no result left the loop is suspended in `ReadFrom`, holding the buffer it
just acquired. -/
def listener.listenLoop (ln : listener) : List ReadResult → listener
  | [] =>
    if ln.closed then ln
    else { ln with bufGot := ln.bufGot + 1 }
  | rd :: reads =>
    if ln.closed then ln
    else
      let b := ln.bufGot
      let ln := { ln with bufGot := ln.bufGot + 1 }
      match rd with
      | ReadResult.error e => { ln with errChan := some e, errChanClosed := true }
      | ReadResult.packet raddr _ =>
        match ln.getConn raddr with
        | (none, ln) => listener.listenLoop { ln with bufPut := ln.bufPut ++ [b] } reads
        | (some c, ln) => listener.listenLoop (Conn.WriteQueue ln c b).2 reads

/-- The listener after `getConn` was called for each source address in turn. -/
def feed (ln : listener) (ps : List String) : listener :=
  ps.foldl (fun ln a => (ln.getConn a).2) ln

/-- The distinct addresses of `ps` that are not in `seen`, in the order of
their first occurrence. -/
def distinctFrom (seen : List String) : List String → List String
  | [] => []
  | a :: ps =>
    if a ∈ seen then distinctFrom seen ps else a :: distinctFrom (seen ++ [a]) ps

/-- The distinct source addresses of `ps`, in the order of first arrival. -/
def distinctSources (ps : List String) : List String :=
  distinctFrom [] ps

end Udp

namespace Udp

/-- The invariant of `getConn`: the pool binds exactly the queued `Conn`s,
each under its remote address, and every queued `Conn` was allocated before. -/
def Inv (ln : listener) : Prop :=
  ln.connPool = ln.cqueue.map (fun c => (c.raddr, c)) ∧
  ∀ c ∈ ln.cqueue, c.id < ln.nextConn

/-- Four peers. -/
def fourPeers : List String := ["P1", "P2", "P3", "P4"]

end Udp

namespace Udp

end Udp

/-- A dialer with a `DialFunc` and an `Interface` that names no interface. -/
def overrideDialer : NetDialer :=
  { Interface := "nope0", Mark := 100, DialFunc := some (fun _ _ => (some 7, none)) }

/-- A dialer with a `DialFunc` and no `Interface`. -/
def plainOverrideDialer : NetDialer :=
  { Mark := 100, DialFunc := some (fun _ _ => (some 7, none)) }

/-- The node `GetNode` returns for the last index of a non-empty route. -/
theorem getNode_last (node0 : Node) (rest : List Node) (ifce : String) :
    Route.GetNode (some (Route.mk (node0 :: rest) ifce))
        ((Route.Len (some (Route.mk (node0 :: rest) ifce)) : Int) - 1) =
      some (rest.length, (node0 :: rest).getLast (List.cons_ne_nil _ _)) := by
  have h1 : ((rest.length : Int) + 1 - 1) = (rest.length : Int) := by omega
  simp [Route.GetNode, Route.Len, Route.nodes, h1, List.getLast_eq_getElem]

/-- C5: on a route `r` of N > 0 nodes (N the length of `r.nodes`) on which
`Route.connect` succeeds with stream `s`, the node `Route.Dial` takes for the
terminal `Connect` is the last element of `r.nodes`, at index N-1, and `Dial`
asks its transport to `Connect` over `s` to the caller's network and address.
When that fails with `e`, `Dial` closes `s` once and returns `(nil, e)`; when
it succeeds with stream `cc`, `Dial` returns `(cc, nil)` and closes nothing. -/
theorem dial_terminal_connect (env : Env) (sys : Sys) (r : Route) (network address : String)
    (t0 t1 : List Event) (s : Conn)
    (hN : 0 < r.nodes.length)
    (hc : Route.connect env (some r) t0 = ((s, none), t1)) :
    Route.Len (some r) = r.nodes.length ∧
    Route.GetNode (some r) ((Route.Len (some r) : Int) - 1) =
      r.nodes.getLast?.map (fun n => (r.nodes.length - 1, n)) ∧
    r.nodes.getLast? = r.nodes.get? (r.nodes.length - 1) ∧
    (∀ (cc : Conn) (e : Err),
      env.Connect t1 (r.nodes.length - 1) s network address = (cc, some e) →
      Route.Dial env sys (some r) network address t0 =
        some ((none, some e),
          t1 ++ [Event.connect (r.nodes.length - 1) s network address cc (some e),
            Event.close s])) ∧
    (∀ cc : Conn,
      env.Connect t1 (r.nodes.length - 1) s network address = (cc, none) →
      Route.Dial env sys (some r) network address t0 =
        some ((cc, none),
          t1 ++ [Event.connect (r.nodes.length - 1) s network address cc none])) := by
  obtain ⟨nodes, ifce⟩ := r
  cases nodes with
  | nil => simp [Route.nodes] at hN
  | cons node0 rest =>
    have hlen0 : Route.Len (some (Route.mk (node0 :: rest) ifce)) = rest.length + 1 := by
      simp [Route.Len, Route.nodes]
    have hg := getNode_last node0 rest ifce
    have hnodes : (Route.mk (node0 :: rest) ifce).nodes = node0 :: rest := rfl
    refine ⟨by rw [hlen0, hnodes]; simp, ?_, ?_, ?_, ?_⟩
    · rw [hg, hnodes, List.getLast?_eq_getLast _ (List.cons_ne_nil _ _)]
      simp
    · rw [hnodes, List.getLast?_eq_getLast _ (List.cons_ne_nil _ _),
        List.getLast_eq_getElem]
      simp
    · intro cc e hcon
      rw [hnodes] at hcon ⊢
      simp only [List.length_cons, Nat.add_sub_cancel] at hcon ⊢
      simp only [Route.Dial, hlen0, Nat.succ_ne_zero, if_false, hc, ne_eq, not_true_eq_false]
      rw [hlen0] at hg
      simp only [hg]
      simp only [hcon]
      simp
    · intro cc hcon
      rw [hnodes] at hcon ⊢
      simp only [List.length_cons, Nat.add_sub_cancel] at hcon ⊢
      simp only [Route.Dial, hlen0, Nat.succ_ne_zero, if_false, hc, ne_eq, not_true_eq_false]
      rw [hlen0] at hg
      simp only [hg]
      simp only [hcon]
      simp

/-- C5 at a concrete input: the terminal `Connect` of the two-hop route goes
to the second node, at index 1. -/
theorem dial_terminal_connect_witness :
    0 < twoHops.nodes.length ∧
    Route.connect okEnv (some twoHops) [] = ((some 6, none), twoHopsConnectTrace) ∧
    Route.GetNode (some twoHops) ((Route.Len (some twoHops) : Int) - 1) =
      some (1, Node.mk "b.example:1080" none) ∧
    Route.Dial okEnv noSys (some twoHops) "udp" "10.0.0.1:53" [] =
      some ((some 8, none),
        twoHopsConnectTrace ++ [Event.connect 1 (some 6) "udp" "10.0.0.1:53" (some 8) none]) ∧
    Route.Dial connFailEnv noSys (some (Route.mk [Node.mk "a.example:1080" none] "")) "udp"
        "10.0.0.1:53" [] =
      some ((none, some "connect failed"),
        [Event.resolve 0 "ip" "a.example:1080" "a.example:1080" none,
         Event.dial 0 "a.example:1080" (some 1) none,
         Event.handshake 0 (some 1) (some 2) none,
         Event.reset 0,
         Event.connect 0 (some 2) "udp" "10.0.0.1:53" none (some "connect failed"),
         Event.close (some 2)]) :=
  ⟨by decide, by decide,
    (dial_terminal_connect okEnv noSys twoHops "udp" "10.0.0.1:53" [] twoHopsConnectTrace
      (some 6) (by decide) (by decide)).2.1,
    (dial_terminal_connect okEnv noSys twoHops "udp" "10.0.0.1:53" [] twoHopsConnectTrace
      (some 6) (by decide) (by decide)).2.2.2.2 (some 8) (by decide),
    (dial_terminal_connect connFailEnv noSys (Route.mk [Node.mk "a.example:1080" none] "")
      "udp" "10.0.0.1:53" []
      [Event.resolve 0 "ip" "a.example:1080" "a.example:1080" none,
       Event.dial 0 "a.example:1080" (some 1) none,
       Event.handshake 0 (some 1) (some 2) none,
       Event.reset 0]
      (some 2) (by decide) (by decide)).2.2.2.1 none "connect failed" (by decide)⟩

/-- The conditional append in the loop of `Route.Path` appends the path of
the node's sub-route. -/
theorem pathNode_eq (node : Node) (path : List Node) :
    Route.PathNode node path = path ++ Route.Path node.subRoute := by
  rcases node with ⟨a, _ | ⟨_ | sub⟩⟩ <;>
    simp [Route.PathNode, Route.Path, Node.subRoute, Node.Transport, Transport.route]

/-- The loop of `Route.Path` appends, for each node in order, the path of its
sub-route and then the node. -/
theorem pathLoop_eq (nodes path : List Node) :
    Route.PathLoop nodes path =
      path ++ nodes.flatMap (fun n => Route.Path n.subRoute ++ [n]) := by
  induction nodes generalizing path with
  | nil => simp [Route.PathLoop]
  | cons node rest ih => simp [Route.PathLoop, ih, pathNode_eq, List.flatMap_cons]

/-- The length of the flattened path: one per node plus the sub-paths. -/
theorem length_flatMap_subPath (nodes : List Node) :
    (nodes.flatMap (fun n => Route.Path n.subRoute ++ [n])).length =
      nodes.length + (nodes.map (fun n => (Route.Path n.subRoute).length)).sum := by
  induction nodes with
  | nil => simp
  | cons n ns ih =>
    rw [List.flatMap_cons, List.length_append, ih]
    simp
    omega

/-- The nodes appear in the flattened path, in order. -/
theorem sublist_flatMap_subPath (nodes : List Node) :
    nodes.Sublist (nodes.flatMap (fun n => Route.Path n.subRoute ++ [n])) := by
  induction nodes with
  | nil => simp
  | cons n ns ih =>
    rw [List.flatMap_cons, List.append_assoc]
    exact List.Sublist.trans (List.Sublist.cons₂ n ih) (List.sublist_append_right _ _)

/-- Without sub-routes the flattened path is the node list. -/
theorem flatMap_subPath_of_no_subRoute (nodes : List Node)
    (hno : ∀ n ∈ nodes, n.subRoute = none) :
    nodes.flatMap (fun n => Route.Path n.subRoute ++ [n]) = nodes := by
  induction nodes with
  | nil => simp
  | cons n ns ih =>
    have hn : n.subRoute = none := hno n (List.mem_cons_self _ _)
    rw [List.flatMap_cons, ih (fun m hm => hno m (List.mem_cons_of_mem _ hm)), hn]
    simp [Route.Path]

/-- C6: `Path()` of a route is the concatenation, over its nodes in order, of
the `Path()` of the node's transport sub-route (empty without a transport or a
sub-route) followed by the node. So its length is `Len()` plus the lengths of
the sub-routes' paths, the nodes of the route appear in it in route order, it
is the node list when no node has a sub-route, and it is empty for a nil or
empty route. -/
theorem path_flatten (r : Route) :
    Route.Path (some r) = r.nodes.flatMap (fun n => Route.Path n.subRoute ++ [n]) ∧
    (Route.Path (some r)).length =
      Route.Len (some r) + (r.nodes.map (fun n => (Route.Path n.subRoute).length)).sum ∧
    r.nodes.Sublist (Route.Path (some r)) ∧
    ((∀ n ∈ r.nodes, n.subRoute = none) → Route.Path (some r) = r.nodes) ∧
    (Route.Len (some r) = 0 → Route.Path (some r) = []) ∧
    Route.Path none = [] := by
  obtain ⟨nodes, ifce⟩ := r
  have hflat : Route.Path (some (Route.mk nodes ifce)) =
      nodes.flatMap (fun n => Route.Path n.subRoute ++ [n]) := by
    cases nodes with
    | nil => simp [Route.Path, Route.PathOf]
    | cons n ns => simp [Route.Path, Route.PathOf, pathLoop_eq]
  refine ⟨hflat, ?_, ?_, ?_, ?_, rfl⟩
  · rw [hflat]
    exact length_flatMap_subPath nodes
  · rw [hflat]
    exact sublist_flatMap_subPath nodes
  · intro hno
    rw [hflat]
    exact flatMap_subPath_of_no_subRoute nodes hno
  · intro h0
    simp only [Route.Len, Route.nodes, List.length_eq_zero] at h0
    subst h0
    simp [Route.Path, Route.PathOf]

/-- C6 at a concrete input: a node with a one-node sub-route, then a plain node. -/
theorem path_flatten_witness :
    (Route.Path (some nestedRoute)).map Node.Addr =
      ["a.example:1080", "b.example:443", "c.example:8080"] ∧
    (Route.Path (some nestedRoute) =
        nestedRoute.nodes.flatMap (fun n => Route.Path n.subRoute ++ [n]) ∧
      (Route.Path (some nestedRoute)).length =
        Route.Len (some nestedRoute) +
          (nestedRoute.nodes.map (fun n => (Route.Path n.subRoute).length)).sum ∧
      nestedRoute.nodes.Sublist (Route.Path (some nestedRoute)) ∧
      ((∀ n ∈ nestedRoute.nodes, n.subRoute = none) →
        Route.Path (some nestedRoute) = nestedRoute.nodes) ∧
      (Route.Len (some nestedRoute) = 0 → Route.Path (some nestedRoute) = []) ∧
      Route.Path none = []) :=
  ⟨by decide, path_flatten nestedRoute⟩

namespace Udp

/-- A lookup in a pool that binds the queued `Conn`s under their addresses. -/
theorem get_map_eq (cq : List Conn) (a : String) :
    ConnPool.Get (cq.map (fun c => (c.raddr, c))) a = cq.find? (fun c => c.raddr = a) := by
  induction cq with
  | nil => simp [ConnPool.Get]
  | cons c cs ih =>
    simp only [ConnPool.Get, List.map_cons, List.find?_cons] at ih ⊢
    by_cases h : c.raddr = a
    · simp [h]
    · simpa [h] using ih

/-- A miss in the pool: no queued `Conn` has the address. -/
theorem get_map_eq_none (cq : List Conn) (a : String) :
    ConnPool.Get (cq.map (fun c => (c.raddr, c))) a = none ↔ a ∉ cq.map Conn.raddr := by
  rw [get_map_eq, List.find?_eq_none]
  simp only [decide_eq_true_eq, List.mem_map, not_exists, not_and]

/-- Binding a new address in the pool appends the binding. -/
theorem set_map_of_not_mem (cq : List Conn) (a : String) (n : Nat)
    (h : a ∉ cq.map Conn.raddr) :
    ConnPool.Set (cq.map (fun c => (c.raddr, c))) a (Conn.mk n a) =
      (cq ++ [Conn.mk n a]).map (fun c => (c.raddr, c)) := by
  have hf : (cq.map (fun c => (c.raddr, c))).filter (fun kv => kv.1 ≠ a) =
      cq.map (fun c => (c.raddr, c)) := by
    rw [List.filter_eq_self]
    intro kv hkv
    simp only [List.mem_map] at hkv h
    obtain ⟨d, hd, rfl⟩ := hkv
    simp only [ne_eq, decide_eq_true_eq]
    intro hda
    exact h ⟨d, hd, hda⟩
  rw [ConnPool.Set, hf]
  simp

/-- One call of `getConn` in a state that satisfies the invariant: a hit
changes nothing; a miss with room queues and registers the new `Conn`; a miss
on a full queue closes the new `Conn` and returns nil. -/
theorem getConn_step (ln : listener) (a : String) (hinv : Inv ln) :
    (a ∈ ln.cqueue.map Conn.raddr → (ln.getConn a).2 = ln) ∧
    (a ∉ ln.cqueue.map Conn.raddr → ln.cqueue.length < ln.backlog →
      ln.getConn a = (some (Conn.mk ln.nextConn a),
        { ln with
          nextConn := ln.nextConn + 1,
          cqueue := ln.cqueue ++ [Conn.mk ln.nextConn a],
          connPool := (ln.cqueue ++ [Conn.mk ln.nextConn a]).map
            (fun c => (c.raddr, c)) })) ∧
    (a ∉ ln.cqueue.map Conn.raddr → ln.backlog ≤ ln.cqueue.length →
      ln.getConn a = (none,
        { ln with
          nextConn := ln.nextConn + 1,
          closedConns := ln.closedConns ++ [Conn.mk ln.nextConn a] })) := by
  obtain ⟨hpool, -⟩ := hinv
  refine ⟨?_, ?_, ?_⟩
  · intro hmem
    have hne : ConnPool.Get ln.connPool a ≠ none := by
      rw [hpool]
      exact fun h => (get_map_eq_none ln.cqueue a).1 h hmem
    obtain ⟨c, hc⟩ := Option.ne_none_iff_exists'.1 hne
    simp [listener.getConn, hc]
  · intro hnot hroom
    have hget : ConnPool.Get ln.connPool a = none := by
      rw [hpool]
      exact (get_map_eq_none ln.cqueue a).2 hnot
    simp only [listener.getConn, hget, hroom, if_true]
    rw [hpool, set_map_of_not_mem ln.cqueue a ln.nextConn hnot]
  · intro hnot hfull
    have hget : ConnPool.Get ln.connPool a = none := by
      rw [hpool]
      exact (get_map_eq_none ln.cqueue a).2 hnot
    simp only [listener.getConn, hget, Nat.not_lt.2 hfull, if_false]

/-- The accept queue and the pool after `getConn` was called for each address
of `ps` in turn, from a state that satisfies the invariant. -/
theorem feed_spec (ps : List String) (ln : listener) (hinv : Inv ln) :
    (feed ln ps).cqueue.map Conn.raddr =
      ln.cqueue.map Conn.raddr ++
        (distinctFrom (ln.cqueue.map Conn.raddr) ps).take (ln.backlog - ln.cqueue.length) ∧
    Inv (feed ln ps) ∧ (feed ln ps).backlog = ln.backlog := by
  induction ps generalizing ln with
  | nil => simp [feed, distinctFrom, hinv]
  | cons a ps ih =>
    have hfeed : feed ln (a :: ps) = feed (ln.getConn a).2 ps := rfl
    obtain ⟨hhit, hroom, hfull⟩ := getConn_step ln a hinv
    rw [hfeed]
    by_cases hmem : a ∈ ln.cqueue.map Conn.raddr
    · rw [hhit hmem]
      simpa [distinctFrom, hmem] using ih ln hinv
    · by_cases hlt : ln.cqueue.length < ln.backlog
      · rw [hroom hmem hlt]
        have hinv2 : Inv { ln with
            nextConn := ln.nextConn + 1,
            cqueue := ln.cqueue ++ [Conn.mk ln.nextConn a],
            connPool := (ln.cqueue ++ [Conn.mk ln.nextConn a]).map
              (fun c => (c.raddr, c)) } := by
          refine ⟨rfl, ?_⟩
          intro c hc
          simp only [List.mem_append, List.mem_singleton] at hc
          rcases hc with hc | rfl
          · exact Nat.lt_succ_of_lt (hinv.2 c hc)
          · exact Nat.lt_succ_self _
        obtain ⟨h1, h2, h3⟩ := ih _ hinv2
        refine ⟨?_, h2, h3⟩
        rw [h1]
        have hk : ln.backlog - ln.cqueue.length =
            (ln.backlog - (ln.cqueue.length + 1)) + 1 := by omega
        simp only [List.map_append, List.map_cons, List.map_nil, List.length_append,
          List.length_singleton, distinctFrom, hmem, if_false]
        rw [hk, List.take_succ_cons]
        simp
      · have hge : ln.backlog ≤ ln.cqueue.length := Nat.not_lt.1 hlt
        rw [hfull hmem hge]
        have hinv2 : Inv { ln with
            nextConn := ln.nextConn + 1,
            closedConns := ln.closedConns ++ [Conn.mk ln.nextConn a] } :=
          ⟨hinv.1, fun c hc => Nat.lt_succ_of_lt (hinv.2 c hc)⟩
        obtain ⟨h1, h2, h3⟩ := ih _ hinv2
        refine ⟨?_, h2, h3⟩
        rw [h1]
        have hz : ln.backlog - ln.cqueue.length = 0 := by omega
        simp [hz]

/-- The addresses kept by `distinctFrom` are those of `ps` outside `seen`. -/
theorem mem_distinctFrom (ps seen : List String) (x : String) :
    x ∈ distinctFrom seen ps ↔ x ∈ ps ∧ x ∉ seen := by
  induction ps generalizing seen with
  | nil => simp [distinctFrom]
  | cons a ps ih =>
    by_cases ha : a ∈ seen
    · simp only [distinctFrom, ha, if_true, ih, List.mem_cons]
      constructor
      · rintro ⟨h1, h2⟩
        exact ⟨Or.inr h1, h2⟩
      · rintro ⟨h1 | h1, h2⟩
        · exact absurd (h1 ▸ ha) h2
        · exact ⟨h1, h2⟩
    · simp only [distinctFrom, ha, if_false, List.mem_cons, ih]
      by_cases hx : x = a
      · subst hx
        simp [ha]
      · simp [hx]

/-- No address is kept twice by `distinctFrom`. -/
theorem nodup_distinctFrom (ps seen : List String) : (distinctFrom seen ps).Nodup := by
  induction ps generalizing seen with
  | nil => simp [distinctFrom]
  | cons a ps ih =>
    by_cases ha : a ∈ seen
    · simpa [distinctFrom, ha] using ih seen
    · simp only [distinctFrom, ha, if_false, List.nodup_cons]
      refine ⟨?_, ih _⟩
      rw [mem_distinctFrom]
      simp

/-- C7: from a new listener of backlog `B`, after `getConn` was called for the
source address of each packet of `ps` in turn (no `Accept`, no eviction), the
accept queue holds one `Conn` for each of the first `min B d` distinct source
addresses, in the order of first arrival, `d` being the number of distinct
sources; the pool binds exactly these `Conn`s, each under its address, so no
address is bound twice; and a packet of a new peer that finds the queue full
yields a `Conn` that is closed, neither queued nor registered, and `getConn`
returns nil. With backlog 2 and the peers P1, P2, P3, P4, `Accept` yields P1,
then P2, then blocks, and the `Conn`s of P3 and P4 were closed. -/
theorem getConn_backlog (B q : Nat) (ps : List String) (a : String) :
    (feed (NewListener B q) ps).cqueue.map Conn.raddr = (distinctSources ps).take B ∧
    (feed (NewListener B q) ps).cqueue.length = min B (distinctSources ps).length ∧
    ((distinctSources ps).Nodup ∧ ∀ x, x ∈ distinctSources ps ↔ x ∈ ps) ∧
    (feed (NewListener B q) ps).connPool =
      (feed (NewListener B q) ps).cqueue.map (fun c => (c.raddr, c)) ∧
    ((feed (NewListener B q) ps).connPool.map Prod.fst).Nodup ∧
    (a ∉ (feed (NewListener B q) ps).cqueue.map Conn.raddr →
      B ≤ (feed (NewListener B q) ps).cqueue.length →
      ∃ (c : Conn) (ln2 : listener),
        (feed (NewListener B q) ps).getConn a = (none, ln2) ∧ c.raddr = a ∧
        ln2.closedConns = (feed (NewListener B q) ps).closedConns ++ [c] ∧
        c ∉ ln2.cqueue ∧ c ∉ ln2.connPool.map Prod.snd ∧
        ln2.cqueue = (feed (NewListener B q) ps).cqueue ∧
        ln2.connPool = (feed (NewListener B q) ps).connPool) ∧
    ((feed (NewListener 2 q) fourPeers).Accept.map Prod.fst =
        [(some (Conn.mk 0 "P1"), none)] ∧
      ((feed (NewListener 2 q) fourPeers).Accept.flatMap
        (fun o => o.2.Accept)).map Prod.fst = [(some (Conn.mk 1 "P2"), none)] ∧
      (((feed (NewListener 2 q) fourPeers).Accept.flatMap
        (fun o => o.2.Accept)).flatMap (fun o => o.2.Accept)).map Prod.fst = [] ∧
      (feed (NewListener 2 q) fourPeers).closedConns = [Conn.mk 2 "P3", Conn.mk 3 "P4"]) := by
  have hinv0 : Inv (NewListener B q) := ⟨rfl, by simp [NewListener]⟩
  obtain ⟨hq, hinv, hB⟩ := feed_spec ps (NewListener B q) hinv0
  have hq2 : (feed (NewListener B q) ps).cqueue.map Conn.raddr =
      (distinctSources ps).take B := by
    simpa [NewListener, distinctSources] using hq
  have hB2 : (feed (NewListener B q) ps).backlog = B := by simpa [NewListener] using hB
  have hnd : (distinctSources ps).Nodup := nodup_distinctFrom ps []
  refine ⟨hq2, ?_, ⟨hnd, ?_⟩, hinv.1, ?_, ?_, ?_⟩
  · have := congrArg List.length hq2
    simpa using this
  · intro x
    simp [distinctSources, mem_distinctFrom]
  · rw [hinv.1, List.map_map]
    have hfun : (Prod.fst ∘ fun c : Conn => (c.raddr, c)) = Conn.raddr := rfl
    rw [hfun, hq2]
    exact hnd.sublist (List.take_sublist _ _)
  · intro hnot hfull
    obtain ⟨-, -, hdrop⟩ := getConn_step (feed (NewListener B q) ps) a hinv
    have hfull2 : (feed (NewListener B q) ps).backlog ≤
        (feed (NewListener B q) ps).cqueue.length := by rw [hB2]; exact hfull
    refine ⟨Conn.mk (feed (NewListener B q) ps).nextConn a, _, hdrop hnot hfull2, rfl, rfl,
      ?_, ?_, rfl, rfl⟩
    · intro hc
      exact Nat.lt_irrefl _ (hinv.2 _ hc)
    · intro hc
      simp only [hinv.1, List.map_map, List.mem_map, Function.comp] at hc
      obtain ⟨d, hd, hda⟩ := hc
      subst hda
      exact Nat.lt_irrefl _ (hinv.2 _ hd)
  · refine ⟨?_, ?_, ?_, ?_⟩ <;>
      simp [feed, NewListener, fourPeers, listener.getConn, ConnPool.Get, ConnPool.Set,
        listener.Accept]

/-- C7 at a concrete input: backlog 2, the four peers, then a fifth one. -/
theorem getConn_backlog_witness :
    (feed (NewListener 2 1) fourPeers).cqueue = [Conn.mk 0 "P1", Conn.mk 1 "P2"] ∧
    (feed (NewListener 2 1) fourPeers).cqueue.map Conn.raddr =
      (distinctSources fourPeers).take 2 ∧
    (feed (NewListener 2 1) fourPeers).connPool =
      (feed (NewListener 2 1) fourPeers).cqueue.map (fun c => (c.raddr, c)) ∧
    ((feed (NewListener 2 1) fourPeers).getConn "P5").1 = none :=
  ⟨by decide, (getConn_backlog 2 1 fourPeers "P5").1,
    (getConn_backlog 2 1 fourPeers "P5").2.2.2.1, by decide⟩

/-- C9 fails on the code: when `ReadFrom` fails, the read loop has acquired a
buffer and ends without returning it; and a packet that finds the inbound
queue of its `Conn` full is discarded without its buffer being returned. Only
the drop of a new peer on a full accept queue returns the buffer. -/
theorem listenLoop_buffer_leak :
    (∀ (ln : listener) (e : Err), ln.closed = false →
      (ln.listenLoop [ReadResult.error e]).bufGot = ln.bufGot + 1 ∧
      (ln.listenLoop [ReadResult.error e]).bufPut = ln.bufPut ∧
      (ln.listenLoop [ReadResult.error e]).bufQueued = ln.bufQueued ∧
      (ln.listenLoop [ReadResult.error e]).errChan = some e ∧
      (ln.listenLoop [ReadResult.error e]).errChanClosed = true) ∧
    (((NewListener 2 1).listenLoop [ReadResult.error "read udp: i/o timeout"]).bufGot = 1 ∧
      ((NewListener 2 1).listenLoop [ReadResult.error "read udp: i/o timeout"]).bufPut = [] ∧
      ((NewListener 2 1).listenLoop
        [ReadResult.error "read udp: i/o timeout"]).bufQueued = []) ∧
    (((NewListener 2 1).listenLoop
        [ReadResult.packet "P1" 10, ReadResult.packet "P1" 10]).bufGot = 3 ∧
      ((NewListener 2 1).listenLoop
        [ReadResult.packet "P1" 10, ReadResult.packet "P1" 10]).bufPut = [] ∧
      ((NewListener 2 1).listenLoop
        [ReadResult.packet "P1" 10, ReadResult.packet "P1" 10]).bufQueued = [0]) ∧
    (((NewListener 0 1).listenLoop [ReadResult.packet "P1" 10]).bufGot = 2 ∧
      ((NewListener 0 1).listenLoop [ReadResult.packet "P1" 10]).bufPut = [0] ∧
      ((NewListener 0 1).listenLoop [ReadResult.packet "P1" 10]).bufQueued = []) := by
  refine ⟨?_, ⟨by decide, by decide, by decide⟩, ⟨by decide, by decide, by decide⟩,
    ⟨by decide, by decide, by decide⟩⟩
  intro ln e hc
  simp [listener.listenLoop, hc]

end Udp

/-- C10, as amended: a `NetDialer` with a `DialFunc` first resolves its
`Interface` with `parseInterfaceAddr`; when that fails, `Dial` returns
`(nil, err)` with that error and `DialFunc` is not consulted; when it
succeeds, as it always does for an empty `Interface`, `Dial` returns exactly
what `DialFunc(ctx, network, addr)` returns. In no case does the result
depend on `Mark`, on `Timeout`, or on what the built-in `ListenUDP` and
`DialContext` (with device binding and mark setting) would do. -/
theorem dial_with_dialFunc (sys : Sys) (d : NetDialer) (network addr : String)
    (f : String → String → Conn × Option Err) (hf : d.DialFunc = some f) :
    (∀ (ifce : String) (la : Option LocalAddr),
      parseInterfaceAddr sys d.Interface network = some (ifce, la, none) →
      NetDialer.Dial sys (some d) network addr = some (f network addr)) ∧
    (∀ (ifce : String) (la : Option LocalAddr) (e : Err),
      parseInterfaceAddr sys d.Interface network = some (ifce, la, some e) →
      NetDialer.Dial sys (some d) network addr = some (none, some e)) ∧
    (d.Interface = "" → NetDialer.Dial sys (some d) network addr = some (f network addr)) ∧
    (∀ (mark timeout : Int) (listenUDP : String → Option (IP × Nat) → Conn × Option Err)
        (dialContext : Int → Option LocalAddr → SockControl → String → String →
          Conn × Option Err),
      NetDialer.Dial { sys with ListenUDP := listenUDP, DialContext := dialContext }
          (some { d with Mark := mark, Timeout := timeout }) network addr =
        NetDialer.Dial sys (some d) network addr) := by
  have hmain : ∀ (s2 : Sys) (d2 : NetDialer), d2.DialFunc = some f →
      NetDialer.Dial s2 (some d2) network addr =
        match parseInterfaceAddr s2 d2.Interface network with
        | none => none
        | some (_, _, some e) => some (none, some e)
        | some (_, _, none) => some (f network addr) := by
    intro s2 d2 h2
    by_cases ht : d2.Timeout ≤ 0 <;>
      rcases hp : parseInterfaceAddr s2 d2.Interface network with _ | ⟨i, la, _ | e⟩ <;>
      simp [NetDialer.Dial, ht, hp, h2]
  refine ⟨?_, ?_, ?_, ?_⟩
  · intro ifce la hp
    rw [hmain sys d hf, hp]
  · intro ifce la e hp
    rw [hmain sys d hf, hp]
  · intro hi
    rw [hmain sys d hf, hi]
    simp [parseInterfaceAddr]
  · intro mark timeout listenUDP dialContext
    rw [hmain sys d hf, hmain _ _ (by simpa using hf)]
    rfl

/-- C10, as amended, at a concrete input: a dialer with a `DialFunc` and no
`Interface`. -/
theorem dial_with_dialFunc_witness :
    plainOverrideDialer.DialFunc = some (fun _ _ => (some 7, none)) ∧
    NetDialer.Dial noSys (some plainOverrideDialer) "tcp" "203.0.113.5:443" =
      some (some 7, none) :=
  ⟨rfl, (dial_with_dialFunc noSys plainOverrideDialer "tcp" "203.0.113.5:443"
    (fun _ _ => (some 7, none)) rfl).2.2.1 rfl⟩

/-- C10 as stated fails: with a `DialFunc` set and an `Interface` that names
no existing interface, `Dial` returns the error of the interface lookup and
not what `DialFunc` returns. -/
theorem dial_with_dialFunc_counterexample :
    overrideDialer.DialFunc.map (fun f => f "tcp" "203.0.113.5:443") =
      some (some 7, none) ∧
    NetDialer.Dial noSys (some overrideDialer) "tcp" "203.0.113.5:443" =
      some (none, some "no such network interface") ∧
    NetDialer.Dial noSys (some overrideDialer) "tcp" "203.0.113.5:443" ≠
      overrideDialer.DialFunc.map (fun f => f "tcp" "203.0.113.5:443") ∧
    NetDialer.Dial noSys (some { overrideDialer with Interface := "" }) "tcp"
        "203.0.113.5:443" ≠
      NetDialer.Dial noSys (some overrideDialer) "tcp" "203.0.113.5:443" := by
  refine ⟨by decide, by decide, by decide, by decide⟩

end Core
